import Mathlib

/-!
Verification of the Route Composition Engine of `src/components/ItineraryPlanner.tsx`.

Modelling conventions.  JavaScript numbers are idealised as rationals.  The
geodesic distance helper `calculateDistance` (haversine, source lines 262-272)
and the geodesic segment length `turf.length` are transcendental computations
over IEEE doubles; every claim under verification is structural in the distance
values, so the engine is embedded parametrically in two rational-valued
distance oracles (`DistFn` for `calculateDistance`, `LineLenFn` for
`turf.length`).  `turf.along` on a two point line is modelled as linear
interpolation along the segment, which the specification explicitly allows for
the path sampler.  `Math.round` is floor of the argument plus one half, and
`parseFloat(x.toFixed(1))` is decimal rounding to one fractional digit.

A central fact about the source: inside the leg loop of `generateRoute` the
declaration `const steps = Math.max(5, Math.floor(lineDistance / 0.5))`
(line 225) shadows the outer `steps: RouteStep[]` array for the whole loop
body, so the call `steps.push({...})` at line 243 is a method call on a
number and raises a TypeError on every input with at least two points.  The
faithful embedding `generateRoute` therefore returns an error for such
inputs; `generateRouteFixed` is the same code with the sample count bound to
a fresh name, i.e. the behaviour the surrounding code and the specification
clearly intend.
-/

namespace ItineraryPlanner

/-- Latitude and longitude in decimal degrees, as in the `location` field of
the `Place` interface. -/
structure Location where
  lat : ℚ
  lon : ℚ
deriving DecidableEq

/-- The `Place` interface (source lines 6-17). -/
structure Place where
  id : String
  name : String
  description : Option String
  location : Location
  distance : Option ℚ
  category : Option String
  image : Option String
deriving DecidableEq

instance : Inhabited Place :=
  ⟨{ id := "", name := "", description := none, location := ⟨0, 0⟩,
     distance := none, category := none, image := none }⟩

/-- The `RouteStep` interface (source lines 19-27).  The generated steps always
carry both place names, so `fromPlace` and `toPlace` are plain strings here. -/
structure RouteStep where
  instruction : String
  distance : ℤ
  duration : ℤ
  startLocation : ℚ × ℚ
  endLocation : ℚ × ℚ
  fromPlace : String
  toPlace : String
deriving DecidableEq

/-- The `Route` interface (source lines 29-34). -/
structure Route where
  duration : ℤ
  distance : ℚ
  steps : List RouteStep
  coordinates : List (ℚ × ℚ)
deriving DecidableEq

/-- Oracle for `calculateDistance(lat1, lon1, lat2, lon2)`: kilometres between
two latitude/longitude points. -/
abbrev DistFn := Location → Location → ℚ

/-- Oracle for `turf.length(turf.lineString([a, b]))`: kilometres along the
two point line, where the coordinates are (longitude, latitude) pairs. -/
abbrev LineLenFn := ℚ × ℚ → ℚ × ℚ → ℚ

/-- `Math.round`: round half up, i.e. the floor of the argument plus 1/2. -/
def jsRound (q : ℚ) : ℤ := ⌊q + 1 / 2⌋

/-- `parseFloat(x.toFixed(1))`: decimal rounding to one fractional digit. -/
def toFixed1 (q : ℚ) : ℚ := (jsRound (q * 10) : ℚ) / 10

/-- The speed table of `generateRoute` (source lines 213-215): start from 40
km/h and overwrite for the two recognised non driving modes.  Any other mode
string keeps the driving speed. -/
def speedFor (mode : String) : ℚ :=
  let speed : ℚ := 40
  let speed := if mode = "cycling-regular" then (15 : ℚ) else speed
  let speed := if mode = "foot-walking" then (5 : ℚ) else speed
  speed

/-- Model of `turf.along(turf.lineString([a, b]), t)`: the point at distance
`t` along the segment from `a` to `b` of total length `lineLen`, as linear
interpolation of the endpoint coordinates (the specification states linear
interpolation is an acceptable model of the sampler).  On a degenerate line of
length zero every sampled point is the start point. -/
def alongLinear (a b : ℚ × ℚ) (lineLen t : ℚ) : ℚ × ℚ :=
  if lineLen = 0 then a
  else (a.1 + t / lineLen * (b.1 - a.1), a.2 + t / lineLen * (b.2 - a.2))

/-- Sample count of one leg (source line 225):
`Math.max(5, Math.floor(lineDistance / 0.5))`. -/
def sampleSteps (lineDistance : ℚ) : ℕ :=
  (max 5 ⌊lineDistance / (0.5 : ℚ)⌋).toNat

/-- The path sampler (source lines 223-232): sample `sampleSteps + 1` points at
fractional positions `j / steps` along the segment from `a` to `b`. -/
def samplePath (lineLen : LineLenFn) (a b : ℚ × ℚ) : List (ℚ × ℚ) :=
  let lineDistance := lineLen a b
  let stepCount := sampleSteps lineDistance
  (List.range (stepCount + 1)).map fun (j : ℕ) =>
    alongLinear a b lineDistance (lineDistance * ((j : ℚ) / (stepCount : ℚ)))

/-- The mutable locals of `generateRoute` (source lines 192-195). -/
structure SynthState where
  coordinates : List (ℚ × ℚ)
  steps : List RouteStep
  totalDistance : ℚ
  totalDuration : ℚ
deriving DecidableEq

/-- Initial synthesizer state: empty accumulators. -/
def initState : SynthState := ⟨[], [], 0, 0⟩

/-- The error raised at source line 243: `steps` there resolves to the loop
local numeric sample count declared at line 225, not to the outer
`RouteStep[]` array, so `steps.push` is a method call on a number. -/
def stepsPushMsg : String := "TypeError: steps.push is not a function"

/-- Faithful embedding of the leg loop of `generateRoute` (source lines
198-252).  Each iteration computes the leg distance, speed, duration, sampled
segment coordinates and the accumulator updates of lines 203-240, and then
reaches `steps.push({...})` at line 243, which raises a TypeError because of
the shadowing described in the module comment.  With fewer than two points the
loop body never runs. -/
def generateRouteGo (dist : DistFn) (lineLen : LineLenFn) (mode : String) :
    Bool → SynthState → List Place → Except String SynthState
  | _, st, [] => Except.ok st
  | _, st, [_] => Except.ok st
  | isFirst, st, fromP :: toP :: _ =>
    let fromCoord : ℚ × ℚ := (fromP.location.lon, fromP.location.lat)
    let toCoord : ℚ × ℚ := (toP.location.lon, toP.location.lat)
    let distance := dist fromP.location toP.location
    let speed := speedFor mode
    let duration := distance / speed * 60
    let segmentCoordinates := samplePath lineLen fromCoord toCoord
    let _st1 : SynthState :=
      { coordinates := st.coordinates ++
          (if isFirst then segmentCoordinates else segmentCoordinates.drop 1)
        steps := st.steps
        totalDistance := st.totalDistance + distance
        totalDuration := st.totalDuration + duration }
    Except.error stepsPushMsg

/-- Faithful embedding of `generateRoute` (source lines 188-260): run the leg
loop from the empty state, then assemble the `Route` literal of lines 254-259.
The error branch propagates the TypeError of the loop body. -/
def generateRoute (dist : DistFn) (lineLen : LineLenFn) (points : List Place)
    (mode : String) : Except String Route :=
  match generateRouteGo dist lineLen mode true initState points with
  | Except.ok st =>
    Except.ok
      { duration := jsRound st.totalDuration
        distance := toFixed1 st.totalDistance
        steps := st.steps
        coordinates := st.coordinates }
  | Except.error e => Except.error e

/-- The leg loop of `generateRoute` with the shadowing slip repaired: the
sample count is bound to a fresh name, so the push at line 243 appends the
`RouteStep` record to the outer step list, which is what the code and the
specification intend. -/
def generateRouteFixedGo (dist : DistFn) (lineLen : LineLenFn) (mode : String) :
    Bool → SynthState → List Place → SynthState
  | _, st, [] => st
  | _, st, [_] => st
  | isFirst, st, fromP :: toP :: rest =>
    let fromCoord : ℚ × ℚ := (fromP.location.lon, fromP.location.lat)
    let toCoord : ℚ × ℚ := (toP.location.lon, toP.location.lat)
    let distance := dist fromP.location toP.location
    let speed := speedFor mode
    let duration := distance / speed * 60
    let segmentCoordinates := samplePath lineLen fromCoord toCoord
    let st1 : SynthState :=
      { coordinates := st.coordinates ++
          (if isFirst then segmentCoordinates else segmentCoordinates.drop 1)
        steps := st.steps ++
          [{ instruction := "Head to " ++ toP.name
             distance := jsRound (distance * 1000)
             duration := jsRound duration
             startLocation := (fromP.location.lat, fromP.location.lon)
             endLocation := (toP.location.lat, toP.location.lon)
             fromPlace := fromP.name
             toPlace := toP.name }]
        totalDistance := st.totalDistance + distance
        totalDuration := st.totalDuration + duration }
    generateRouteFixedGo dist lineLen mode false st1 (toP :: rest)

/-- `generateRoute` with the shadowing slip repaired (the intended route
synthesizer). -/
def generateRouteFixed (dist : DistFn) (lineLen : LineLenFn)
    (points : List Place) (mode : String) : Route :=
  let st := generateRouteFixedGo dist lineLen mode true initState points
  { duration := jsRound st.totalDuration
    distance := toFixed1 st.totalDistance
    steps := st.steps
    coordinates := st.coordinates }

/-- The inner argmin scan of `optimizeRoute` (source lines 122-132): walk the
remaining places from index `i`, keeping the index and distance of the best
candidate so far, updating only on a strictly smaller distance. -/
def scanClosest (dcur : Place → ℚ) : ℕ → ℕ → ℚ → List Place → ℕ × ℚ
  | _, bestIdx, bestDist, [] => (bestIdx, bestDist)
  | i, bestIdx, bestDist, p :: ps =>
    if dcur p < bestDist then scanClosest dcur (i + 1) i (dcur p) ps
    else scanClosest dcur (i + 1) bestIdx bestDist ps

/-- Index of the closest remaining place (source lines 116-132): the scan is
seeded with index 0 and the distance to the first pool element. -/
def closestIdx (dcur : Place → ℚ) (pool : List Place) : ℕ :=
  match pool with
  | [] => 0
  | p :: ps => (scanClosest dcur 1 0 (dcur p) ps).1

/-- Removal step of the greedy loop (source line 138):
`remainingPlaces.filter((_, idx) => idx !== closestIdx)`. -/
def removeIdx (l : List Place) (j : ℕ) : List Place :=
  (l.enum.filter fun p => p.1 ≠ j).map Prod.snd

/-- The greedy reordering loop of `optimizeRoute` (source lines 109-139),
written with an explicit fuel bounding the number of iterations of the
`while (remainingPlaces.length > 0)` loop.  `optimizeRoute` supplies fuel
equal to the initial pool size; that this fuel is exact — the selected index
is always in bounds and each iteration removes exactly one pool element — is
proved below, settling the termination claim. -/
def optimizeRouteGo (dist : DistFn) : ℕ → Location → List Place → List Place
  | 0, _, _ => []
  | n + 1, cur, pool =>
    match pool with
    | [] => []
    | p :: ps =>
      let dcur := fun q => dist cur q.location
      let j := closestIdx dcur (p :: ps)
      let nextPlace := (p :: ps).getD j default
      nextPlace ::
        optimizeRouteGo dist n nextPlace.location (removeIdx (p :: ps) j)

/-- The greedy nearest neighbour reordering of `optimizeRoute` (source lines
109-141): starting from the current location, repeatedly append the closest
remaining place and move there. -/
def optimizeRoute (dist : DistFn) (start : Location) (places : List Place) :
    List Place :=
  optimizeRouteGo dist places.length start places

/-- Specification side predicate, from the words of the ordering heuristic
contract: index `j` points at the first pool element attaining the minimal
distance from the current position — it is in bounds, no pool element is
strictly closer, and every earlier pool element is strictly farther. -/
def isFirstMin (dcur : Place → ℚ) (pool : List Place) (j : ℕ) : Prop :=
  j < pool.length ∧
  (∀ i, i < pool.length → dcur (pool.getD j default) ≤ dcur (pool.getD i default)) ∧
  (∀ i, i < j → dcur (pool.getD j default) < dcur (pool.getD i default))

/-- Specification side description of the greedy ordering, transcribed from
the spec: repeat until the pool is empty — pick the remaining stop at minimal
distance from the current position, ties broken by input order (first
occurrence wins), append it, remove it from the pool and move there. -/
inductive GreedyOrder (dist : DistFn) : Location → List Place → List Place → Prop where
  | nil : ∀ cur, GreedyOrder dist cur [] []
  | cons : ∀ (cur : Location) (pool : List Place) (j : ℕ) (rest : List Place),
      isFirstMin (fun p => dist cur p.location) pool j →
      GreedyOrder dist (pool.getD j default).location (pool.eraseIdx j) rest →
      GreedyOrder dist cur pool (pool.getD j default :: rest)

/-! Concrete fixtures used by witnesses and counterexamples: a constant
distance oracle (every pair of points one kilometre apart), a constant
segment length oracle, and the three points of the concrete scenario in the
testable properties section of the spec. -/

/-- Constant distance oracle: every leg is one kilometre. -/
def cDist : DistFn := fun _ _ => 1

/-- Constant segment length oracle: every sampled line is one kilometre. -/
def cLen : LineLenFn := fun _ _ => 1

/-- The origin of the concrete scenario: (37.0, -122.0). -/
def pOrigin : Place :=
  { id := "user", name := "Your Location", description := none,
    location := ⟨37, -122⟩, distance := none, category := none, image := none }

/-- Stop A of the concrete scenario: (37.01, -122.0). -/
def pA : Place :=
  { id := "a", name := "A", description := none,
    location := ⟨37.01, -122⟩, distance := none, category := none, image := none }

/-- Stop B of the concrete scenario: (37.0, -122.02). -/
def pB : Place :=
  { id := "b", name := "B", description := none,
    location := ⟨37, -122.02⟩, distance := none, category := none, image := none }

/-- Origin with integer coordinates, for concrete path evaluations. -/
def qO : Place :=
  { id := "user", name := "Your Location", description := none,
    location := ⟨0, 0⟩, distance := none, category := none, image := none }

/-- First integer coordinate stop: latitude 0, longitude 5. -/
def qA : Place :=
  { id := "qa", name := "QA", description := none,
    location := ⟨0, 5⟩, distance := none, category := none, image := none }

/-- Second integer coordinate stop: latitude 5, longitude 5. -/
def qB : Place :=
  { id := "qb", name := "QB", description := none,
    location := ⟨5, 5⟩, distance := none, category := none, image := none }

/-- Sum of the leg distances of an ordered point sequence: the value
accumulated into `totalDistance` by the leg loop. -/
def legSum (dist : DistFn) : List Place → ℚ
  | [] => 0
  | [_] => 0
  | a :: b :: rest => dist a.location b.location + legSum dist (b :: rest)

/-! ### Auxiliary lemmas about the route synthesizer -/

lemma jsRound_zero : jsRound 0 = 0 := by
  norm_num [jsRound, Int.floor_eq_zero_iff, Set.mem_Ico]

lemma toFixed1_zero : toFixed1 0 = 0 := by
  norm_num [toFixed1, jsRound, Int.floor_eq_zero_iff, Set.mem_Ico]

/-- Any mode other than the two recognised non driving tokens keeps the
driving speed of 40 km/h. -/
lemma speedFor_eq_forty {mode : String} (h1 : mode ≠ "cycling-regular")
    (h2 : mode ≠ "foot-walking") : speedFor mode = 40 := by
  simp [speedFor, h1, h2]

/-- The steps list of the repaired synthesizer grows by one per leg. -/
lemma generateRouteFixedGo_steps_length (dist : DistFn) (lineLen : LineLenFn)
    (mode : String) :
    ∀ (points : List Place) (isFirst : Bool) (st : SynthState),
      (generateRouteFixedGo dist lineLen mode isFirst st points).steps.length
        = st.steps.length + (points.length - 1)
  | [], _, _ => by simp [generateRouteFixedGo]
  | [_], _, _ => by simp [generateRouteFixedGo]
  | _ :: b :: rest, _, st => by
    have ih := generateRouteFixedGo_steps_length dist lineLen mode (b :: rest)
    simp only [generateRouteFixedGo]
    rw [ih]
    simp [List.length_append]
    omega

/-- The repaired leg loop depends on the mode only through the speed table. -/
lemma generateRouteFixedGo_mode_congr (dist : DistFn) (lineLen : LineLenFn)
    {m1 m2 : String} (h : speedFor m1 = speedFor m2) :
    ∀ (points : List Place) (isFirst : Bool) (st : SynthState),
      generateRouteFixedGo dist lineLen m1 isFirst st points
        = generateRouteFixedGo dist lineLen m2 isFirst st points
  | [], _, _ => by simp [generateRouteFixedGo]
  | [_], _, _ => by simp [generateRouteFixedGo]
  | _ :: b :: rest, _, st => by
    have ih := generateRouteFixedGo_mode_congr dist lineLen h (b :: rest)
    simp only [generateRouteFixedGo, h]
    rw [ih]

/-- The repaired loop accumulates exactly the sum of the leg distances. -/
lemma generateRouteFixedGo_totalDistance (dist : DistFn) (lineLen : LineLenFn)
    (mode : String) :
    ∀ (points : List Place) (isFirst : Bool) (st : SynthState),
      (generateRouteFixedGo dist lineLen mode isFirst st points).totalDistance
        = st.totalDistance + legSum dist points
  | [], _, _ => by simp [generateRouteFixedGo, legSum]
  | [_], _, _ => by simp [generateRouteFixedGo, legSum]
  | _ :: b :: rest, _, st => by
    have ih := generateRouteFixedGo_totalDistance dist lineLen mode (b :: rest)
    simp only [generateRouteFixedGo]
    rw [ih]
    simp [legSum]
    ring

/-- The repaired loop accumulates the sum of the leg distances divided by the
mode speed, times sixty. -/
lemma generateRouteFixedGo_totalDuration (dist : DistFn) (lineLen : LineLenFn)
    (mode : String) :
    ∀ (points : List Place) (isFirst : Bool) (st : SynthState),
      (generateRouteFixedGo dist lineLen mode isFirst st points).totalDuration
        = st.totalDuration + legSum dist points / speedFor mode * 60
  | [], _, _ => by simp [generateRouteFixedGo, legSum]
  | [_], _, _ => by simp [generateRouteFixedGo, legSum]
  | _ :: b :: rest, _, st => by
    have ih := generateRouteFixedGo_totalDuration dist lineLen mode (b :: rest)
    simp only [generateRouteFixedGo]
    rw [ih]
    simp [legSum, add_div, add_mul]
    ring

/-- Rounding half up is monotone. -/
lemma jsRound_mono {a b : ℚ} (h : a ≤ b) : jsRound a ≤ jsRound b :=
  Int.floor_le_floor (by linarith)

/-! ### Claim theorems -/

/-- C7: with fewer than two points the leg loop never runs and `generateRoute`
succeeds with the zero route: no steps, zero distance, zero duration, empty
coordinates. -/
theorem c7_short_input_zero_route (dist : DistFn) (lineLen : LineLenFn)
    (points : List Place) (mode : String) (h : points.length < 2) :
    generateRoute dist lineLen points mode =
      Except.ok { duration := 0, distance := 0, steps := [], coordinates := [] } := by
  match points, h with
  | [], _ =>
    simp [generateRoute, generateRouteGo, initState, jsRound_zero, toFixed1_zero]
  | [p], _ =>
    simp [generateRoute, generateRouteGo, initState, jsRound_zero, toFixed1_zero]

/-- Witness for C7 at the empty input sequence. -/
theorem c7_short_input_zero_route_witness :
    ([] : List Place).length < 2 ∧
    generateRoute cDist cLen [] "driving-car" =
      Except.ok { duration := 0, distance := 0, steps := [], coordinates := [] } :=
  ⟨by simp, c7_short_input_zero_route cDist cLen [] "driving-car" (by simp)⟩

/-- C1: the claim states one `RouteStep` per consecutive pair, but on every
input with at least two points the code raises a TypeError before any step
record is created, because the loop local numeric `steps` constant shadows the
outer step array at the `steps.push` call.  The repaired synthesizer produces
exactly `n - 1` steps, as the claim intends. -/
theorem c1_steps_shadowing_bug :
    generateRoute cDist cLen [pOrigin, pA] "driving-car" = Except.error stepsPushMsg ∧
    ∀ (dist : DistFn) (lineLen : LineLenFn) (points : List Place) (mode : String),
      (generateRouteFixed dist lineLen points mode).steps.length = points.length - 1 := by
  constructor
  · rfl
  · intro dist lineLen points mode
    simp [generateRouteFixed,
      generateRouteFixedGo_steps_length dist lineLen mode points, initState]

/-- C2: the claim states `generateRoute` never throws, but on the two stop
scenario input it raises the TypeError of the shadowed `steps.push` call; only
inputs with fewer than two points return normally (the zero route). -/
theorem c2_not_exception_free :
    generateRoute cDist cLen [pOrigin, pA, pB] "cycling-regular" = Except.error stepsPushMsg ∧
    generateRoute cDist cLen [pB] "cycling-regular" =
      Except.ok { duration := 0, distance := 0, steps := [], coordinates := [] } := by
  constructor
  · rfl
  · simp [generateRoute, generateRouteGo, initState, jsRound_zero, toFixed1_zero]

/-- C3 counterexample: with the unknown mode string `hovercraft` and a single
point the call succeeds with the zero route — no InvalidMode error, no
rejection at the boundary. -/
theorem c3_counterexample :
    generateRoute cDist cLen [pOrigin] "hovercraft" =
      Except.ok { duration := 0, distance := 0, steps := [], coordinates := [] } := by
  simp [generateRoute, generateRouteGo, initState, jsRound_zero, toFixed1_zero]

/-- C3 amended: the code never validates the travel mode; every mode outside
the two recognised non driving tokens silently keeps the driving speed of 40
km/h, so the repaired synthesizer returns for it exactly the driving route. -/
theorem c3_silent_driving_default (dist : DistFn) (lineLen : LineLenFn)
    (points : List Place) (mode : String)
    (h1 : mode ≠ "cycling-regular") (h2 : mode ≠ "foot-walking") :
    speedFor mode = speedFor "driving-car" ∧
    generateRouteFixed dist lineLen points mode
      = generateRouteFixed dist lineLen points "driving-car" := by
  have hspeed : speedFor mode = speedFor "driving-car" := by
    rw [speedFor_eq_forty h1 h2, speedFor_eq_forty (by decide) (by decide)]
  exact ⟨hspeed,
    by simp [generateRouteFixed,
      generateRouteFixedGo_mode_congr dist lineLen hspeed points]⟩

/-- Witness for C3 amended: the unknown mode `hovercraft` behaves as driving. -/
theorem c3_silent_driving_default_witness :
    ("hovercraft" ≠ "cycling-regular" ∧ "hovercraft" ≠ "foot-walking") ∧
    (speedFor "hovercraft" = speedFor "driving-car" ∧
      generateRouteFixed cDist cLen [pOrigin, pA] "hovercraft"
        = generateRouteFixed cDist cLen [pOrigin, pA] "driving-car") :=
  ⟨⟨by decide, by decide⟩,
    c3_silent_driving_default cDist cLen [pOrigin, pA] "hovercraft"
      (by decide) (by decide)⟩

/-- C9 counterexample: on the one point input sequence both modes return the
zero route, so switching from driving to walking leaves the total duration at
zero instead of strictly increasing it. -/
theorem c9_counterexample :
    generateRoute cDist cLen [pOrigin] "foot-walking" =
      Except.ok { duration := 0, distance := 0, steps := [], coordinates := [] } ∧
    generateRoute cDist cLen [pOrigin] "driving-car" =
      Except.ok { duration := 0, distance := 0, steps := [], coordinates := [] } ∧
    Except.map Route.duration (generateRoute cDist cLen [pOrigin] "foot-walking")
      = Except.map Route.duration (generateRoute cDist cLen [pOrigin] "driving-car") := by
  refine ⟨?_, ?_, ?_⟩ <;>
    simp [generateRoute, generateRouteGo, initState, jsRound_zero, toFixed1_zero]

/-- C9 amended: on the repaired synthesizer, for any input whose legs have
positive total distance, switching from driving to walking leaves the total
distance unchanged, never decreases the rounded total duration, and strictly
increases the unrounded accumulated duration. -/
theorem c9_walking_slower_than_driving (dist : DistFn) (lineLen : LineLenFn)
    (points : List Place) (hpos : 0 < legSum dist points) :
    (generateRouteFixed dist lineLen points "foot-walking").distance
      = (generateRouteFixed dist lineLen points "driving-car").distance ∧
    (generateRouteFixed dist lineLen points "driving-car").duration
      ≤ (generateRouteFixed dist lineLen points "foot-walking").duration ∧
    (generateRouteFixedGo dist lineLen "driving-car" true initState points).totalDuration
      < (generateRouteFixedGo dist lineLen "foot-walking" true initState points).totalDuration := by
  have hw : speedFor "foot-walking" = 5 := by simp [speedFor]
  have hd : speedFor "driving-car" = 40 := by simp [speedFor]
  refine ⟨?_, ?_, ?_⟩
  · simp [generateRouteFixed, generateRouteFixedGo_totalDistance]
  · simp only [generateRouteFixed, generateRouteFixedGo_totalDuration, hw, hd,
      initState]
    apply jsRound_mono
    have : legSum dist points / 40 * 60 ≤ legSum dist points / 5 * 60 := by
      rw [div_mul_eq_mul_div, div_mul_eq_mul_div,
        div_le_div_iff₀ (by norm_num) (by norm_num)]
      nlinarith [hpos.le]
    linarith
  · simp only [generateRouteFixedGo_totalDuration, hw, hd, initState, zero_add]
    rw [div_mul_eq_mul_div, div_mul_eq_mul_div,
      div_lt_div_iff₀ (by norm_num) (by norm_num)]
    nlinarith [hpos]

/-- Witness for C9 amended: two one kilometre legs, positive total distance. -/
theorem c9_walking_slower_than_driving_witness :
    0 < legSum cDist [pOrigin, pA] ∧
    ((generateRouteFixed cDist cLen [pOrigin, pA] "foot-walking").distance
      = (generateRouteFixed cDist cLen [pOrigin, pA] "driving-car").distance ∧
    (generateRouteFixed cDist cLen [pOrigin, pA] "driving-car").duration
      ≤ (generateRouteFixed cDist cLen [pOrigin, pA] "foot-walking").duration ∧
    (generateRouteFixedGo cDist cLen "driving-car" true initState [pOrigin, pA]).totalDuration
      < (generateRouteFixedGo cDist cLen "foot-walking" true initState [pOrigin, pA]).totalDuration) :=
  ⟨by norm_num [legSum, cDist],
    c9_walking_slower_than_driving cDist cLen [pOrigin, pA]
      (by norm_num [legSum, cDist])⟩

/-- The first sampled point of a map over `range (n + 1)`. -/
lemma map_range_head? {α : Type} (f : ℕ → α) (n : ℕ) :
    ((List.range (n + 1)).map f).head? = some (f 0) := by
  rw [List.range_succ_eq_map]
  simp

/-- The last sampled point of a map over `range (n + 1)`. -/
lemma map_range_getLast? {α : Type} (f : ℕ → α) (n : ℕ) :
    ((List.range (n + 1)).map f).getLast? = some (f n) := by
  rw [List.range_succ, List.map_append]
  simp

/-- C8: on any segment whose reported length is zero only when the endpoints
coincide (true of any geodesic length), the sampler returns the start point
first, the end point last, and `sampleSteps + 1 ≥ 6` points, where the sample
count is `max(5, floor(lengthKm / 0.5))` — at least five steps however short
the segment. -/
theorem c8_samplePath_endpoints (lineLen : LineLenFn) (a b : ℚ × ℚ)
    (h : lineLen a b = 0 → a = b) :
    (samplePath lineLen a b).head? = some a ∧
    (samplePath lineLen a b).getLast? = some b ∧
    (samplePath lineLen a b).length = sampleSteps (lineLen a b) + 1 ∧
    5 ≤ sampleSteps (lineLen a b) := by
  have hs : 5 ≤ sampleSteps (lineLen a b) := by
    simp [sampleSteps]
  have hsne : ((sampleSteps (lineLen a b) : ℚ)) ≠ 0 := by
    have h7 : (0 : ℕ) < sampleSteps (lineLen a b) := by omega
    exact_mod_cast h7.ne'
  have hrepr : samplePath lineLen a b
      = (List.range (sampleSteps (lineLen a b) + 1)).map
          (fun (j : ℕ) => alongLinear a b (lineLen a b)
            (lineLen a b * ((j : ℚ) / (sampleSteps (lineLen a b) : ℚ)))) := rfl
  refine ⟨?_, ?_, ?_, hs⟩
  · rw [hrepr, map_range_head?]
    by_cases hL : lineLen a b = 0 <;> simp [alongLinear, hL]
  · rw [hrepr, map_range_getLast?, div_self hsne, mul_one]
    by_cases hL : lineLen a b = 0
    · simp [alongLinear, hL, h hL]
    · rw [alongLinear, if_neg hL, div_self hL]
      simp only [Option.some.injEq, Prod.ext_iff]
      constructor <;> ring
  · rw [hrepr]
    simp

/-- Witness for C8 on a concrete segment of constant reported length one. -/
theorem c8_samplePath_endpoints_witness :
    (cLen (0, 0) (3, 4) = 0 → ((0 : ℚ), (0 : ℚ)) = ((3 : ℚ), (4 : ℚ))) ∧
    ((samplePath cLen (0, 0) (3, 4)).head? = some (0, 0) ∧
     (samplePath cLen (0, 0) (3, 4)).getLast? = some (3, 4) ∧
     (samplePath cLen (0, 0) (3, 4)).length = sampleSteps (cLen (0, 0) (3, 4)) + 1 ∧
     5 ≤ sampleSteps (cLen (0, 0) (3, 4))) :=
  ⟨fun hzero => absurd hzero (by norm_num [cLen]),
    c8_samplePath_endpoints cLen (0, 0) (3, 4)
      (fun hzero => absurd hzero (by norm_num [cLen]))⟩

/-- C6: on every input with at least two points the code raises the shadowed
`steps.push` TypeError before returning, so no coordinates sequence is ever
produced; the repaired synthesizer assembles the claimed sequence, shown here
on a concrete three point tour — first leg kept whole, second leg with its
first sampled point dropped, no duplicate at the boundary, starting at the
origin coordinate and ending at the final stop coordinate. -/
theorem c6_coordinates_concatenation_bug :
    generateRoute cDist cLen [qO, qA, qB] "driving-car" = Except.error stepsPushMsg ∧
    (generateRouteFixed cDist cLen [qO, qA, qB] "driving-car").coordinates
      = samplePath cLen (qO.location.lon, qO.location.lat)
            (qA.location.lon, qA.location.lat)
        ++ (samplePath cLen (qA.location.lon, qA.location.lat)
            (qB.location.lon, qB.location.lat)).drop 1 ∧
    (generateRouteFixed cDist cLen [qO, qA, qB] "driving-car").coordinates.head?
      = some (qO.location.lon, qO.location.lat) ∧
    (generateRouteFixed cDist cLen [qO, qA, qB] "driving-car").coordinates.getLast?
      = some (qB.location.lon, qB.location.lat) ∧
    List.Chain' (fun x y => x ≠ y)
      (generateRouteFixed cDist cLen [qO, qA, qB] "driving-car").coordinates := by
  have hco : (generateRouteFixed cDist cLen [qO, qA, qB] "driving-car").coordinates
      = [(0, 0), (1, 0), (2, 0), (3, 0), (4, 0), (5, 0),
         (5, 1), (5, 2), (5, 3), (5, 4), (5, 5)] := by
    norm_num [generateRouteFixed, generateRouteFixedGo, initState, samplePath,
      sampleSteps, alongLinear, cLen, qO, qA, qB, List.range_succ,
      List.range_zero, show Int.toNat 5 = 5 from rfl, Int.floor_intCast]
  refine ⟨rfl, ?_, ?_, ?_, ?_⟩
  · simp [generateRouteFixed, generateRouteFixedGo, initState]
  · rw [hco]; rfl
  · rw [hco]; rfl
  · rw [hco]
    norm_num [List.chain'_cons, Prod.ext_iff]

/-! ### Auxiliary lemmas about the ordering heuristic -/

/-- The argmin scan, seeded with a best index that is a first minimum of the
already processed prefix, returns a first minimum of the whole pool. -/
lemma scanClosest_spec (dcur : Place → ℚ) :
    ∀ (ps pre : List Place) (b : ℕ), b < pre.length →
      (∀ i, i < pre.length →
        dcur (pre.getD b default) ≤ dcur (pre.getD i default)) →
      (∀ i, i < b → dcur (pre.getD b default) < dcur (pre.getD i default)) →
      isFirstMin dcur (pre ++ ps)
        (scanClosest dcur pre.length b (dcur (pre.getD b default)) ps).1
  | [], pre, b, hb, hmin, hstrict => by
    rw [List.append_nil]
    exact ⟨hb, hmin, hstrict⟩
  | p :: ps, pre, b, hb, hmin, hstrict => by
    have hassoc : pre ++ p :: ps = (pre ++ [p]) ++ ps := by simp
    have hlenp : (pre ++ [p]).length = pre.length + 1 := by simp
    have hgetp : (pre ++ [p]).getD pre.length default = p := by
      rw [List.getD_append_right _ _ _ _ le_rfl]
      simp
    have hgetlt : ∀ i, i < pre.length →
        (pre ++ [p]).getD i default = pre.getD i default :=
      fun i hi => List.getD_append _ _ _ _ hi
    by_cases hlt : dcur p < dcur (pre.getD b default)
    · have hmin1 : ∀ i, i < (pre ++ [p]).length →
          dcur ((pre ++ [p]).getD pre.length default)
            ≤ dcur ((pre ++ [p]).getD i default) := by
        intro i hi
        rw [hgetp]
        rcases Nat.lt_or_ge i pre.length with hc | hc
        · rw [hgetlt i hc]
          exact le_of_lt (lt_of_lt_of_le hlt (hmin i hc))
        · have hieq : i = pre.length := by rw [hlenp] at hi; omega
          rw [hieq, hgetp]
      have hstrict1 : ∀ i, i < pre.length →
          dcur ((pre ++ [p]).getD pre.length default)
            < dcur ((pre ++ [p]).getD i default) := by
        intro i hi
        rw [hgetp, hgetlt i hi]
        exact lt_of_lt_of_le hlt (hmin i hi)
      have ih := scanClosest_spec dcur ps (pre ++ [p]) pre.length
        (by simp) hmin1 hstrict1
      rw [hgetp, hlenp] at ih
      simp only [scanClosest, if_pos hlt]
      rw [hassoc]
      exact ih
    · have hble : dcur (pre.getD b default) ≤ dcur p := not_lt.mp hlt
      have hb1 : b < (pre ++ [p]).length := by rw [hlenp]; omega
      have hgetb : (pre ++ [p]).getD b default = pre.getD b default :=
        hgetlt b hb
      have hmin1 : ∀ i, i < (pre ++ [p]).length →
          dcur ((pre ++ [p]).getD b default)
            ≤ dcur ((pre ++ [p]).getD i default) := by
        intro i hi
        rw [hgetb]
        rcases Nat.lt_or_ge i pre.length with hc | hc
        · rw [hgetlt i hc]
          exact hmin i hc
        · have hieq : i = pre.length := by rw [hlenp] at hi; omega
          rw [hieq, hgetp]
          exact hble
      have hstrict1 : ∀ i, i < b →
          dcur ((pre ++ [p]).getD b default)
            < dcur ((pre ++ [p]).getD i default) := by
        intro i hi
        rw [hgetb, hgetlt i (hi.trans hb)]
        exact hstrict i hi
      have ih := scanClosest_spec dcur ps (pre ++ [p]) b hb1 hmin1 hstrict1
      rw [hgetb, hlenp] at ih
      simp only [scanClosest, if_neg hlt]
      rw [hassoc]
      exact ih

/-- The selected index of a non empty pool is the first minimum, exactly the
selection rule of the specification. -/
lemma closestIdx_isFirstMin (dcur : Place → ℚ) (pool : List Place)
    (h : pool ≠ []) : isFirstMin dcur pool (closestIdx dcur pool) := by
  cases pool with
  | nil => exact absurd rfl h
  | cons p ps =>
    have base := scanClosest_spec dcur ps [p] 0 (by simp)
      (by
        intro i hi
        have hieq : i = 0 := by simpa using hi
        simp [hieq])
      (by intro i hi; exact absurd hi (Nat.not_lt_zero i))
    simpa [closestIdx] using base

/-- The selected index is always within the pool bounds. -/
lemma closestIdx_lt (dcur : Place → ℚ) (pool : List Place) (h : pool ≠ []) :
    closestIdx dcur pool < pool.length :=
  (closestIdx_isFirstMin dcur pool h).1

/-- Filtering the indexed pool by an index below the numbering base keeps
every element. -/
lemma enumFrom_filter_ne_lt :
    ∀ (l : List Place) (n m : ℕ), m < n →
      ((l.enumFrom n).filter fun p => p.1 ≠ m).map Prod.snd = l
  | [], _, _, _ => rfl
  | a :: l, n, m, h => by
    have hne : n ≠ m := by omega
    have ih := enumFrom_filter_ne_lt l (n + 1) m (by omega)
    show (List.filter _ ((n, a) :: List.enumFrom (n + 1) l)).map Prod.snd = a :: l
    rw [List.filter_cons, if_pos (by simpa using hne), List.map_cons, ih]

/-- The index filter of the greedy loop is removal at an index. -/
lemma removeIdxAux :
    ∀ (l : List Place) (n j : ℕ),
      ((l.enumFrom n).filter fun p => p.1 ≠ n + j).map Prod.snd = l.eraseIdx j
  | [], _, _ => rfl
  | a :: l, n, j => by
    cases j with
    | zero =>
      show (List.filter _ ((n, a) :: List.enumFrom (n + 1) l)).map Prod.snd = l
      rw [List.filter_cons, if_neg (by simp)]
      exact enumFrom_filter_ne_lt l (n + 1) (n + 0) (by omega)
    | succ k =>
      have hne : n ≠ n + (k + 1) := by omega
      have ih := removeIdxAux l (n + 1) k
      show (List.filter _ ((n, a) :: List.enumFrom (n + 1) l)).map Prod.snd
        = a :: l.eraseIdx k
      rw [List.filter_cons, if_pos (by simp [hne]), List.map_cons]
      rw [show n + (k + 1) = n + 1 + k from by omega]
      rw [ih]

/-- `removeIdx` is `List.eraseIdx`. -/
lemma removeIdx_eq_eraseIdx (l : List Place) (j : ℕ) :
    removeIdx l j = l.eraseIdx j := by
  have h := removeIdxAux l 0 j
  simpa [removeIdx, List.enum] using h

/-- A list is a permutation of its element at any index consed onto the list
with that index erased. -/
lemma perm_getD_cons_eraseIdx {α : Type} (d : α) :
    ∀ (l : List α) (i : ℕ), i < l.length →
      l.Perm (l.getD i d :: l.eraseIdx i)
  | [], i, h => absurd h (by simp)
  | _ :: _, 0, _ => by simp
  | a :: l, i + 1, h => by
    have ih := perm_getD_cons_eraseIdx d l i (by simpa using h)
    have h2 := (ih.cons a).trans (List.Perm.swap (l.getD i d) a (l.eraseIdx i))
    simpa [List.getD_cons_succ, List.eraseIdx_cons_succ] using h2

/-- With fuel at least the pool size, the greedy loop emits a permutation of
the pool. -/
lemma optimizeRouteGo_perm (dist : DistFn) :
    ∀ (n : ℕ) (cur : Location) (pool : List Place), pool.length ≤ n →
      (optimizeRouteGo dist n cur pool).Perm pool
  | 0, _, pool, h => by
    have hnil : pool = [] := List.eq_nil_of_length_eq_zero (by omega)
    simp [hnil, optimizeRouteGo]
  | n + 1, cur, pool, h => by
    cases pool with
    | nil => simp [optimizeRouteGo]
    | cons p ps =>
      have hjlt : closestIdx (fun q => dist cur q.location) (p :: ps)
          < (p :: ps).length :=
        closestIdx_lt _ _ (by simp)
      have hlen :
          ((p :: ps).eraseIdx
            (closestIdx (fun q => dist cur q.location) (p :: ps))).length ≤ n := by
        have h1 := List.length_eraseIdx_add_one hjlt
        simp only [List.length_cons] at h h1
        omega
      have ih := optimizeRouteGo_perm dist n
        (((p :: ps).getD (closestIdx (fun q => dist cur q.location) (p :: ps))
          default).location)
        ((p :: ps).eraseIdx (closestIdx (fun q => dist cur q.location) (p :: ps)))
        hlen
      show ((p :: ps).getD (closestIdx (fun q => dist cur q.location) (p :: ps))
          default ::
        optimizeRouteGo dist n
          (((p :: ps).getD (closestIdx (fun q => dist cur q.location) (p :: ps))
            default).location)
          (removeIdx (p :: ps)
            (closestIdx (fun q => dist cur q.location) (p :: ps)))).Perm (p :: ps)
      rw [removeIdx_eq_eraseIdx]
      exact (List.Perm.cons _ ih).trans
        (perm_getD_cons_eraseIdx default (p :: ps) _ hjlt).symm

/-- With fuel at least the pool size, the greedy loop satisfies the
specification side greedy ordering relation. -/
lemma optimizeRouteGo_greedy (dist : DistFn) :
    ∀ (n : ℕ) (cur : Location) (pool : List Place), pool.length ≤ n →
      GreedyOrder dist cur pool (optimizeRouteGo dist n cur pool)
  | 0, cur, pool, h => by
    have hnil : pool = [] := List.eq_nil_of_length_eq_zero (by omega)
    subst hnil
    exact GreedyOrder.nil cur
  | n + 1, cur, pool, h => by
    cases pool with
    | nil => exact GreedyOrder.nil cur
    | cons p ps =>
      have hjlt : closestIdx (fun q => dist cur q.location) (p :: ps)
          < (p :: ps).length :=
        closestIdx_lt _ _ (by simp)
      have hfm := closestIdx_isFirstMin (fun q => dist cur q.location)
        (p :: ps) (by simp)
      have hlen :
          ((p :: ps).eraseIdx
            (closestIdx (fun q => dist cur q.location) (p :: ps))).length ≤ n := by
        have h1 := List.length_eraseIdx_add_one hjlt
        simp only [List.length_cons] at h h1
        omega
      have ih := optimizeRouteGo_greedy dist n
        (((p :: ps).getD (closestIdx (fun q => dist cur q.location) (p :: ps))
          default).location)
        ((p :: ps).eraseIdx (closestIdx (fun q => dist cur q.location) (p :: ps)))
        hlen
      show GreedyOrder dist cur (p :: ps)
        ((p :: ps).getD (closestIdx (fun q => dist cur q.location) (p :: ps))
          default ::
          optimizeRouteGo dist n
            (((p :: ps).getD (closestIdx (fun q => dist cur q.location) (p :: ps))
              default).location)
            (removeIdx (p :: ps)
              (closestIdx (fun q => dist cur q.location) (p :: ps))))
      rw [removeIdx_eq_eraseIdx]
      exact GreedyOrder.cons cur (p :: ps) _ _ hfm ih

/-- C4: the greedy reordering returns a permutation of the input stops — in
particular the identifier multiset is preserved, nothing is duplicated or
dropped, and the length is unchanged. -/
theorem c4_permutation (dist : DistFn) (start : Location) (places : List Place) :
    (optimizeRoute dist start places).Perm places ∧
    ((optimizeRoute dist start places).map Place.id).Perm (places.map Place.id) := by
  have hp := optimizeRouteGo_perm dist places.length start places le_rfl
  exact ⟨hp, hp.map Place.id⟩

/-- C5: the greedy reordering satisfies the specification side relation: every
appended element is a remaining pool member at minimal distance from the
current position (origin first, then the last appended stop), ties broken by
first occurrence; in particular the stop nearest to the origin is first. -/
theorem c5_greedy_selection (dist : DistFn) (start : Location)
    (places : List Place) :
    GreedyOrder dist start places (optimizeRoute dist start places) :=
  optimizeRouteGo_greedy dist places.length start places le_rfl

/-- C10: for a non empty pool the selected index is in bounds, one iteration
removes exactly one element, and the loop terminates having consumed the whole
pool — the output length equals the pool length. -/
theorem c10_loop_termination (dist : DistFn) (cur : Location)
    (pool : List Place) (h : pool ≠ []) :
    closestIdx (fun q => dist cur q.location) pool < pool.length ∧
    (removeIdx pool (closestIdx (fun q => dist cur q.location) pool)).length + 1
      = pool.length ∧
    (optimizeRoute dist cur pool).length = pool.length := by
  have hlt := closestIdx_lt (fun q => dist cur q.location) pool h
  refine ⟨hlt, ?_, ?_⟩
  · rw [removeIdx_eq_eraseIdx]
    exact List.length_eraseIdx_add_one hlt
  · exact (optimizeRouteGo_perm dist pool.length cur pool le_rfl).length_eq

/-- Witness for C10 on a one element pool. -/
theorem c10_loop_termination_witness :
    ([pA] ≠ ([] : List Place)) ∧
    (closestIdx (fun q => cDist ⟨0, 0⟩ q.location) [pA] < ([pA] : List Place).length ∧
     (removeIdx [pA] (closestIdx (fun q => cDist ⟨0, 0⟩ q.location) [pA])).length + 1
       = ([pA] : List Place).length ∧
     (optimizeRoute cDist ⟨0, 0⟩ [pA]).length = ([pA] : List Place).length) :=
  ⟨by simp, c10_loop_termination cDist ⟨0, 0⟩ [pA] (by simp)⟩

end ItineraryPlanner
